import Mathlib

/-!
Shallow embedding of `flight_project/flight_parser.py`: the CSV
record validator (`parse_csv_file`) and the query engine from `main`'s
`-q` branch.  Python strings are modelled as `List Char` (ASCII subset of
the Unicode-aware predicates `str.isalnum` / `str.isupper`); Python
floats are modelled exactly, as rationals extended with the IEEE special
values `inf`, `-inf` and `nan` (binary rounding of decimal literals is
not modelled — no claim compares values inside a rounding gap); the
`datetime` values produced by `strptime` are calendar tuples ordered by
a lexicographic key.  Fallible Python code (``try``/``except``,
uncaught exceptions) is modelled with `Option` / `Except`.
-/

deriving instance DecidableEq for Except

namespace FlightCsv

/-- Python `str` (one line, one field, ...) as a list of characters. -/
abbrev Str := List Char

/-- The characters removed by Python `str.strip()` (ASCII whitespace). -/
def isPyWS (c : Char) : Bool :=
  c = ' ' || c = '\t' || c = '\n' || c = '\r' || c = '\x0b' || c = '\x0c'

/-- Python `s.strip()`: drop whitespace from both ends. -/
def pyStrip (s : Str) : Str :=
  ((s.dropWhile isPyWS).reverse.dropWhile isPyWS).reverse

/-- Python `s.startswith(p)`. -/
def startsWith : Str → Str → Bool
  | [], _ => true
  | _ :: _, [] => false
  | p :: ps, c :: cs => p = c && startsWith ps cs

/-- Python `line.split(",")`: `splitOn ',' "".toList = [[]]`, separators
are not kept, empty chunks are kept. -/
def splitOn (sep : Char) : Str → List Str
  | [] => [[]]
  | c :: rest =>
    match splitOn sep rest with
    | h :: t => if c = sep then [] :: h :: t else (c :: h) :: t
    | [] => [[]]

/-- Numeric value of a decimal digit character. -/
def digitVal (c : Char) : Nat := c.toNat - 48

/-- A cased character in the ASCII fragment (Python: category Lu/Ll/Lt). -/
def isCasedAscii (c : Char) : Bool := c.isAlpha

/-- Python `s.isupper()`: at least one cased character, and every cased
character is uppercase.  Uncased characters (digits, punctuation) are
ignored, so e.g. `"AB1".isupper()` is `True`. -/
def pyIsUpper (s : Str) : Bool :=
  s.any isCasedAscii && s.all (fun c => !isCasedAscii c || c.isUpper)

/-- Python `s.isalnum()` (ASCII fragment): nonempty and all alphanumeric. -/
def pyIsAlnum (s : Str) : Bool :=
  !s.isEmpty && s.all (fun c => c.isAlpha || c.isDigit)

/-- The flight_id test of line 45 of the source:
`2 <= len(flight_id) <= 8 and flight_id.isalnum()`. -/
def flightIdOk (fid : Str) : Bool :=
  decide (2 ≤ fid.length) && decide (fid.length ≤ 8) && pyIsAlnum fid

/-- Source `check_airport(code, field_name)`: `None` means the
code passes, `Some reason` carries the field-qualified reason. -/
def check_airport (code : Str) (fieldName : String) : Option String :=
  if code.length != 3 || !pyIsUpper code then
    some ("invalid " ++ fieldName ++ " code")
  else if code = "XXX".toList then
    some ("invalid " ++ fieldName ++ " code")
  else
    none

/-! ### `datetime.strptime(s, "%Y-%m-%d %H:%M")`

CPython's `_strptime` turns the format into the regex
`\d\d\d\d-(1[0-2]|0[1-9]|[1-9])-(3[01]|[12]\d|0[1-9]|[1-9])\s+(2[0-3]|[0-1]\d|\d):([0-5]\d|\d)`
which must match the whole string, and then builds a `datetime`, which
re-checks the day against the month length (and rejects year 0).
Because every numeric component is followed by a non-digit (or the end
of the string), the ordered alternations reduce to: take two digits when
the two-digit value is in range, else one digit. -/

/-- A parsed minute-precision timestamp. -/
structure DT where
  year : Nat
  month : Nat
  day : Nat
  hour : Nat
  minute : Nat
deriving DecidableEq

/-- Order key for `DT`; component bounds make it lexicographic. -/
def DT.key (t : DT) : Nat :=
  (((t.year * 13 + t.month) * 32 + t.day) * 24 + t.hour) * 60 + t.minute

/-- One numeric component: two digits when the value lies in
`[lo2, hi2]`, otherwise a single digit that is at least `oneLo`. -/
def parseComp (lo2 hi2 oneLo : Nat) : Str → Option (Nat × Str)
  | c1 :: c2 :: rest =>
    if c1.isDigit && c2.isDigit then
      let v := digitVal c1 * 10 + digitVal c2
      if lo2 ≤ v ∧ v ≤ hi2 then some (v, rest) else none
    else if c1.isDigit && oneLo ≤ digitVal c1 then
      some (digitVal c1, c2 :: rest)
    else none
  | [c1] =>
    if c1.isDigit && oneLo ≤ digitVal c1 then some (digitVal c1, []) else none
  | [] => none

/-- Year component `%Y`: exactly four digits. -/
def parseYear : Str → Option (Nat × Str)
  | a :: b :: c :: d :: rest =>
    if a.isDigit && b.isDigit && c.isDigit && d.isDigit then
      some (((digitVal a * 10 + digitVal b) * 10 + digitVal c) * 10 + digitVal d, rest)
    else none
  | _ => none

/-- A literal character of the format string. -/
def expectChar (c : Char) : Str → Option Str
  | d :: rest => if d = c then some rest else none
  | [] => none

/-- The blank in the format: regex `\s+` (one or more whitespace). -/
def skipWS1 : Str → Option Str
  | c :: rest => if isPyWS c then some (rest.dropWhile isPyWS) else none
  | [] => none

def isLeap (y : Nat) : Bool :=
  y % 4 == 0 && (y % 100 != 0 || y % 400 == 0)

def daysInMonth (y m : Nat) : Nat :=
  if m = 2 then (if isLeap y then 29 else 28)
  else if m = 4 ∨ m = 6 ∨ m = 9 ∨ m = 11 then 30
  else 31

/-- Python `datetime.strptime(s, "%Y-%m-%d %H:%M")` as an `Option` (a raised
`ValueError` is `none`). -/
def parseDT (s : Str) : Option DT := do
  let (y, s1) ← parseYear s
  let s2 ← expectChar '-' s1
  let (m, s3) ← parseComp 1 12 1 s2
  let s4 ← expectChar '-' s3
  let (d, s5) ← parseComp 1 31 1 s4
  let s6 ← skipWS1 s5
  let (h, s7) ← parseComp 0 23 0 s6
  let s8 ← expectChar ':' s7
  let (mi, s9) ← parseComp 0 59 0 s8
  if s9 = [] ∧ 1 ≤ y ∧ d ≤ daysInMonth y m then
    some ⟨y, m, d, h, mi⟩
  else
    none

/-! ### Python floats

`float(price_str)` and the comparisons `price <= 0`, `price > value`.
A Python float is modelled as an exact rational or one of the special
values `inf`, `-inf`, `nan` (all three are accepted by `float(...)`:
`float("inf")`, `float("-infinity")`, `float("nan")` succeed in CPython).
Comparisons follow IEEE-754: every comparison with `nan` is false. -/

inductive PyFloat where
  | finite (q : ℚ)
  | inf
  | ninf
  | nan
deriving DecidableEq

def PyFloat.isFinite : PyFloat → Bool
  | .finite _ => true
  | _ => false

/-- Python `<` on floats. -/
def pyLt : PyFloat → PyFloat → Bool
  | .nan, _ => false
  | _, .nan => false
  | .finite a, .finite b => decide (a < b)
  | .finite _, .inf => true
  | .finite _, .ninf => false
  | .inf, _ => false
  | .ninf, .ninf => false
  | .ninf, _ => true

/-- Python `==` on floats (`nan == nan` is `False`). -/
def pyEqF : PyFloat → PyFloat → Bool
  | .nan, _ => false
  | _, .nan => false
  | a, b => decide (a = b)

/-- Python `<=` on floats. -/
def pyLe (a b : PyFloat) : Bool := pyLt a b || pyEqF a b

/-- Python `>` on floats. -/
def pyGt (a b : PyFloat) : Bool := pyLt b a

/-- Longest run of leading decimal digits. -/
def takeDigits : Str → (List Char × Str)
  | [] => ([], [])
  | c :: rest =>
    if c.isDigit then
      let (ds, r) := takeDigits rest
      (c :: ds, r)
    else ([], c :: rest)

def digitsToNat (l : List Char) : Nat :=
  l.foldl (fun acc c => acc * 10 + digitVal c) 0

def lowerStr (s : Str) : Str := s.map Char.toLower

/-- Exact value of a parsed decimal literal:
`sign (ipart.fpart) * 10 ^ (esign edigits)`, built as one exact
rational `num / den`. -/
def mkFinite (neg : Bool) (ip fp : List Char) (esign : Bool) (e : Nat) : PyFloat :=
  let m := digitsToNat (ip ++ fp)
  let num : Int := if esign then (m : Int) else (m * 10 ^ e : Nat)
  let den : Nat := if esign then 10 ^ (fp.length + e) else 10 ^ fp.length
  .finite (mkRat (if neg then -num else num) den)

/-- The decimal branch of `float(...)`:
`digits [. digits] [(e|E) [sign] digits]`, at least one mantissa digit,
nothing left over. -/
def parseDecimal (neg : Bool) (s : Str) : Option PyFloat :=
  let (ip, r1) := takeDigits s
  let (fp, r2) :=
    match r1 with
    | '.' :: r => takeDigits r
    | r => ([], r)
  if ip = [] ∧ fp = [] then none
  else
    match r2 with
    | [] => some (mkFinite neg ip fp false 0)
    | e :: r3 =>
      if e = 'e' ∨ e = 'E' then
        let (esign, r4) : Bool × Str :=
          match r3 with
          | '+' :: t => (false, t)
          | '-' :: t => (true, t)
          | t => (false, t)
        let (eds, r5) := takeDigits r4
        if eds = [] ∨ r5 ≠ [] then none
        else some (mkFinite neg ip fp esign (digitsToNat eds))
      else none

/-- CPython `float(s)`: surrounding whitespace, an optional sign, then
either `inf`/`infinity`/`nan` (case-insensitive) or a decimal literal.
(Digit-group underscores and overflow of huge exponents to `inf` are
not modelled; the exact decimal value is kept as a rational.)
`none` models a raised `ValueError`. -/
def parseFloat (s0 : Str) : Option PyFloat :=
  let s := pyStrip s0
  let (neg, s1) : Bool × Str :=
    match s with
    | '+' :: r => (false, r)
    | '-' :: r => (true, r)
    | r => (false, r)
  if lowerStr s1 = "inf".toList ∨ lowerStr s1 = "infinity".toList then
    some (if neg then .ninf else .inf)
  else if lowerStr s1 = "nan".toList then
    some .nan
  else
    parseDecimal neg s1

/-! ### The record validator (`parse_csv_file`) -/

/-- One accepted record, as appended to `valid_flights` (source
lines 89–98): the id, codes and timestamp strings verbatim, the price
as the parsed float. -/
structure Flight where
  flight_id : Str
  origin : Str
  destination : Str
  departure_datetime : Str
  arrival_datetime : Str
  price : PyFloat
deriving DecidableEq

/-- Classification of one input line. -/
inductive LineResult where
  | blank
  | comment
  | header
  | rejected (reasons : List String)
  | accepted (f : Flight)
deriving DecidableEq

def optReason (b : Bool) (r : String) : List String :=
  if b then [r] else []

/-- Cross-check `if dep_dt and arr_dt and arr_dt <= dep_dt` (source line 76). -/
def crossReason (dep arr : Option DT) : List String :=
  match dep, arr with
  | some d, some a => if a.key ≤ d.key then ["arrival before departure"] else []
  | _, _ => []

/-- The `try: price = float(price_str) ...` block (source lines 80–85). -/
def priceReason (p : Option PyFloat) : List String :=
  match p with
  | none => ["invalid price"]
  | some v => if pyLe v (.finite 0) then ["negative price value"] else []

/-- The `reasons` list accumulated over the checks of source
lines 44–85, in the order the checks run. -/
def reasonList (fid org dst dep arr pr : Str) : List String :=
  optReason (!flightIdOk fid) "invalid flight_id"
    ++ (check_airport org "origin").toList
    ++ (check_airport dst "destination").toList
    ++ optReason (parseDT dep).isNone "invalid departure datetime"
    ++ optReason (parseDT arr).isNone "invalid arrival datetime"
    ++ crossReason (parseDT dep) (parseDT arr)
    ++ priceReason (parseFloat pr)

/-- The accept/reject decision for a line that split into exactly six
fields (source lines 41–103).  When `parseFloat pr = none` the reasons
list contains "invalid price", so the line is rejected in both shapes
of the match, exactly as in the source (where the accepted record
re-evaluates `float(price_str)`). -/
def validateFields (fid org dst dep arr pr : Str) : LineResult :=
  match parseFloat pr with
  | some p =>
    if reasonList fid org dst dep arr pr = [] then
      .accepted ⟨fid, org, dst, dep, arr, p⟩
    else .rejected (reasonList fid org dst dep arr pr)
  | none => .rejected (reasonList fid org dst dep arr pr)

/-- Classification of one raw line (source lines 15–103): strip, then
blank / comment / header dispatch, then split on `','` with the
six-field requirement. -/
def processLine (raw : Str) : LineResult :=
  let line := pyStrip raw
  if line = [] then .blank
  else if startsWith "#".toList line then .comment
  else if startsWith "flight_id".toList line then .header
  else
    match splitOn ',' line with
    | [fid, org, dst, dep, arr, pr] => validateFields fid org dst dep arr pr
    | _ => .rejected ["missing required fields"]

def joinComma (rs : List String) : String := String.intercalate ", " rs

/-- The error entry format of the source: the line number, the stripped line, an arrow, and the reason text. -/
def entryLine (n : Nat) (line : Str) (txt : String) : String :=
  "Line " ++ toString n ++ ": " ++ line.asString ++ " → " ++ txt

/-- The enumerate loop of `parse_csv_file`, with 1-based line numbers:
builds `(valid_flights, error_entries)`.  Comment lines contribute an
informational notice to `error_entries`; six-field failures contribute
their joined reasons; blank and header lines contribute nothing. -/
def parseLines : Nat → List Str → List Flight × List String
  | _, [] => ([], [])
  | n, l :: rest =>
    let r := parseLines (n + 1) rest
    match processLine l with
    | .blank => r
    | .header => r
    | .comment =>
      (r.1, entryLine n (pyStrip l) "comment line, ignored for data parsing" :: r.2)
    | .rejected rs => (r.1, entryLine n (pyStrip l) (joinComma rs) :: r.2)
    | .accepted f => (f :: r.1, r.2)

/-- Source `parse_csv_file`, over the list of lines of the file. -/
def parse_csv_file (lines : List Str) : List Flight × List String :=
  parseLines 1 lines

/-! ### The query engine (`main`, `-q` branch, source lines 159–207)

A predicate value is a JSON string or number; a predicate set is the
(insertion-ordered) list of key/value items of the JSON object.
`Except Unit` models an uncaught Python exception: `to_dt` raises
`ValueError` on a malformed timestamp, and a comparison between a float
and a string raises `TypeError`.  There is no `try`/`except` anywhere
in the query loop, so an error aborts the whole `-q` run. -/

inductive QVal where
  | str (s : Str)
  | num (x : PyFloat)
deriving DecidableEq

abbrev Query := List (String × QVal)

/-- One `key, value` iteration of the predicate loop (source
lines 179–199), returning whether the record passes this predicate. -/
def evalPred (f : Flight) (key : String) (v : QVal) : Except Unit Bool :=
  if key = "flight_id" then pure (v == .str f.flight_id)
  else if key = "origin" then pure (v == .str f.origin)
  else if key = "destination" then pure (v == .str f.destination)
  else if key = "price" then
    match v with
    | .num x => pure (!pyGt f.price x)
    | .str _ => .error ()
  else if key = "departure_datetime" then
    match v with
    | .str s =>
      match parseDT f.departure_datetime, parseDT s with
      | some df, some dv => pure (!decide (df.key < dv.key))
      | _, _ => .error ()
    | .num _ => .error ()
  else if key = "arrival_datetime" then
    match v with
    | .str s =>
      match parseDT f.arrival_datetime, parseDT s with
      | some af, some av => pure (!decide (av.key < af.key))
      | _, _ => .error ()
    | .num _ => .error ()
  else pure true

/-- The `ok` flag over all predicates of one set: logical AND, with the
loop never breaking early (so a later predicate can still raise). -/
def matchFlight (f : Flight) (q : Query) : Except Unit Bool :=
  List.foldlM (fun ok kv => do
    let b ← evalPred f kv.1 kv.2
    pure (ok && b)) true q

/-- The `for flight in all_valid` loop: matches in database order. -/
def runQuery (q : Query) : List Flight → Except Unit (List Flight)
  | [] => pure []
  | f :: rest => do
    let b ← matchFlight f q
    let ms ← runQuery q rest
    pure (if b then f :: ms else ms)

/-- The `for q in queries` loop: one `(query, matches)` response per
predicate set; an uncaught exception aborts the whole batch and no
response list is produced. -/
def runQueries (db : List Flight) : List Query → Except Unit (List (Query × List Flight))
  | [] => pure []
  | q :: rest => do
    let ms ← runQuery q db
    let rs ← runQueries db rest
    pure ((q, ms) :: rs)

/-! ### Line-class predicates and concrete fixtures -/

/-- The stripped line is empty (skipped silently, source line 18). -/
def blankLine (l : Str) : Bool := (pyStrip l).isEmpty

/-- Non-blank and starts with `#` (comment notice, source line 22). -/
def commentLine (l : Str) : Bool :=
  !(pyStrip l).isEmpty && startsWith "#".toList (pyStrip l)

/-- Non-blank, not a comment, starts with `flight_id` (source line 29). -/
def headerLine (l : Str) : Bool :=
  !(pyStrip l).isEmpty && !startsWith "#".toList (pyStrip l)
    && startsWith "flight_id".toList (pyStrip l)

def LineResult.isAcc : LineResult → Bool
  | .accepted _ => true
  | _ => false

def LineResult.isRej : LineResult → Bool
  | .rejected _ => true
  | _ => false

/-- A record the validator accepts from
`"AB12,JFK,LAX,2024-05-01 10:00,2024-05-01 14:00,199.99"`. -/
def flightA : Flight :=
  ⟨"AB12".toList, "JFK".toList, "LAX".toList,
   "2024-05-01 10:00".toList, "2024-05-01 14:00".toList, .finite (mkRat 19999 100)⟩

/-- A second record, origin `CDG`, price `50`. -/
def flightB : Flight :=
  ⟨"CD34".toList, "CDG".toList, "LAX".toList,
   "2024-05-01 10:00".toList, "2024-05-01 14:00".toList, .finite 50⟩

/-- A record with price `nan`, exactly as the validator accepts from
`"NN11,JFK,LAX,2024-05-01 10:00,2024-05-01 14:00,nan"`. -/
def flightNaN : Flight :=
  ⟨"NN11".toList, "JFK".toList, "LAX".toList,
   "2024-05-01 10:00".toList, "2024-05-01 14:00".toList, .nan⟩

/-! ## Helper lemmas -/

/-- Function `check_airport` returns either a pass or the single field-qualified
reason string. -/
theorem check_airport_shape (code : Str) (fieldName : String) :
    check_airport code fieldName = none ∨
      check_airport code fieldName = some ("invalid " ++ fieldName ++ " code") := by
  unfold check_airport
  split_ifs <;> simp

/-- Passing the airport check does not depend on the field label. -/
theorem check_airport_none_iff (code : Str) (fieldName : String) :
    check_airport code fieldName = none ↔
      (code.length = 3 ∧ pyIsUpper code = true ∧ code ≠ "XXX".toList) := by
  by_cases hl : code.length = 3
  · by_cases hu : pyIsUpper code = true
    · by_cases hx : code = "XXX".toList
      · unfold check_airport
        rw [if_neg, if_pos hx]
        · simp [hx]
        · simp [hl, hu]
      · unfold check_airport
        rw [if_neg, if_neg hx]
        · simpa [hl, hu] using hx
        · simp [hl, hu]
    · have hu2 : pyIsUpper code = false := by simpa using hu
      unfold check_airport
      rw [if_pos]
      · constructor
        · intro hcon; exact Option.noConfusion hcon
        · rintro ⟨-, hcon, -⟩; exact (hu hcon).elim
      · simp [hu2]
  · unfold check_airport
    rw [if_pos]
    · constructor
      · intro hcon; exact Option.noConfusion hcon
      · rintro ⟨hcon, -, -⟩; exact (hl hcon).elim
    · simp [bne_iff_ne, hl]

theorem optReason_eq_nil (b : Bool) (r : String) :
    optReason b r = [] ↔ b = false := by
  cases b <;> simp [optReason]

theorem crossReason_shape (d a : Option DT) :
    crossReason d a = [] ∨ crossReason d a = ["arrival before departure"] := by
  rcases d with _ | d <;> rcases a with _ | a <;> simp [crossReason] <;> omega

theorem priceReason_shape (p : Option PyFloat) :
    priceReason p = [] ∨ priceReason p = ["invalid price"] ∨
      priceReason p = ["negative price value"] := by
  rcases p with _ | p
  · simp [priceReason]
  · by_cases h : pyLe p (.finite 0) = true <;> simp [priceReason, h]

/-- What acceptance of six split fields means, check by check. -/
theorem validateFields_accepted {fid org dst dep arr pr : Str} {f : Flight}
    (h : validateFields fid org dst dep arr pr = .accepted f) :
    flightIdOk fid = true ∧
    check_airport org "origin" = none ∧
    check_airport dst "destination" = none ∧
    (∃ d, parseDT dep = some d) ∧ (∃ a, parseDT arr = some a) ∧
    (∀ d a, parseDT dep = some d → parseDT arr = some a → d.key < a.key) ∧
    (∃ p, parseFloat pr = some p ∧ pyLe p (.finite 0) = false ∧
      f = ⟨fid, org, dst, dep, arr, p⟩) := by
  unfold validateFields at h
  split at h
  case h_2 => exact LineResult.noConfusion h
  case h_1 p hp =>
    split at h
    case isFalse => exact LineResult.noConfusion h
    case isTrue hr =>
      have hf : f = ⟨fid, org, dst, dep, arr, p⟩ := by
        cases h; rfl
      unfold reasonList at hr
      simp only [List.append_eq_nil, and_assoc] at hr
      obtain ⟨h1, h2, h3, h4, h5, h6, h7⟩ := hr
      refine ⟨?_, ?_, ?_, ?_, ?_, ?_, p, hp, ?_, hf⟩
      · have := (optReason_eq_nil _ _).1 h1
        simpa using this
      · rcases check_airport_shape org "origin" with hc | hc
        · exact hc
        · rw [hc] at h2; exact absurd h2 (by simp)
      · rcases check_airport_shape dst "destination" with hc | hc
        · exact hc
        · rw [hc] at h3; exact absurd h3 (by simp)
      · have := (optReason_eq_nil _ _).1 h4
        rcases hd : parseDT dep with _ | d
        · rw [hd] at this; simp at this
        · exact ⟨d, rfl⟩
      · have := (optReason_eq_nil _ _).1 h5
        rcases ha : parseDT arr with _ | a
        · rw [ha] at this; simp at this
        · exact ⟨a, rfl⟩
      · intro d a hd ha
        rw [hd, ha] at h6
        simp only [crossReason] at h6
        by_cases hle : a.key ≤ d.key
        · rw [if_pos hle] at h6; exact absurd h6 (by simp)
        · exact Nat.lt_of_not_le hle
      · rw [hp] at h7
        simp only [priceReason] at h7
        by_cases hle : pyLe p (.finite 0) = true
        · rw [if_pos hle] at h7; exact absurd h7 (by simp)
        · simpa using hle

/-- An accepted line got past the skip checks and split into exactly
six fields, which `validateFields` accepted. -/
theorem processLine_accepted_split {raw : Str} {f : Flight}
    (h : processLine raw = .accepted f) :
    ∃ fid org dst dep arr pr,
      splitOn ',' (pyStrip raw) = [fid, org, dst, dep, arr, pr] ∧
      validateFields fid org dst dep arr pr = .accepted f := by
  simp only [processLine] at h
  split at h
  · exact LineResult.noConfusion h
  · split at h
    · exact LineResult.noConfusion h
    · split at h
      · exact LineResult.noConfusion h
      · split at h
        next fid org dst dep arr pr heq =>
          exact ⟨fid, org, dst, dep, arr, pr, heq, h⟩
        next => exact LineResult.noConfusion h

/-- A successful query run never invents records: membership in the
match list means membership in the database plus a passing predicate
evaluation. -/
theorem runQuery_ok_mem {q : Query} {db ms : List Flight}
    (h : runQuery q db = .ok ms) (f : Flight) :
    f ∈ ms ↔ (f ∈ db ∧ matchFlight f q = .ok true) := by
  induction db generalizing ms with
  | nil =>
    simp only [runQuery, pure, Except.pure] at h
    cases h
    simp
  | cons g rest ih =>
    simp only [runQuery] at h
    cases hm : matchFlight g q with
    | error e => rw [hm] at h; simp [bind, Except.bind] at h
    | ok b =>
      rw [hm] at h
      cases hr : runQuery q rest with
      | error e =>
        rw [hr] at h
        simp [bind, Except.bind] at h
      | ok ms2 =>
        rw [hr] at h
        simp only [bind, Except.bind, pure, Except.pure, Except.ok.injEq] at h
        subst h
        have hme := ih hr
        cases b with
        | true =>
          rw [if_pos rfl]
          constructor
          · intro hmem
            rcases List.mem_cons.1 hmem with rfl | hmem2
            · exact ⟨List.mem_cons_self _ _, hm⟩
            · rcases hme.1 hmem2 with ⟨hdb, hmf⟩
              exact ⟨List.mem_cons_of_mem _ hdb, hmf⟩
          · rintro ⟨hdb, hmf⟩
            rcases List.mem_cons.1 hdb with rfl | hdb2
            · exact List.mem_cons_self _ _
            · exact List.mem_cons_of_mem _ (hme.2 ⟨hdb2, hmf⟩)
        | false =>
          rw [if_neg Bool.false_ne_true]
          constructor
          · intro hmem
            rcases hme.1 hmem with ⟨hdb, hmf⟩
            exact ⟨List.mem_cons_of_mem _ hdb, hmf⟩
          · rintro ⟨hdb, hmf⟩
            rcases List.mem_cons.1 hdb with rfl | hdb2
            · rw [hm] at hmf; cases hmf
            · exact hme.2 ⟨hdb2, hmf⟩


/-- Evaluating the price predicate alone: passes when the stored price
is not greater than the bound (never raises). -/
theorem matchFlight_price (f : Flight) (v : PyFloat) :
    matchFlight f [("price", QVal.num v)] = .ok (!pyGt f.price v) := rfl

/-- Transporting `>` along `<=` on Python floats. -/
theorem pyGt_of_pyLe_of_pyGt {a b p : PyFloat}
    (hab : pyLe a b = true) (hpb : pyGt p b = true) : pyGt p a = true := by
  cases a <;> cases b <;> cases p <;>
    simp_all [pyLe, pyLt, pyGt, pyEqF] <;>
    rcases hab with h | h <;> linarith

/-- A successful run over a cons database yields a cons-or-skip. -/
theorem runQuery_ok_sublist {q : Query} {db ms : List Flight}
    (h : runQuery q db = .ok ms) : List.Sublist ms db := by
  induction db generalizing ms with
  | nil =>
    simp only [runQuery, pure, Except.pure] at h
    cases h
    exact List.Sublist.refl []
  | cons g rest ih =>
    simp only [runQuery] at h
    cases hm : matchFlight g q with
    | error e => rw [hm] at h; simp [bind, Except.bind] at h
    | ok b =>
      rw [hm] at h
      cases hr : runQuery q rest with
      | error e => rw [hr] at h; simp [bind, Except.bind] at h
      | ok ms2 =>
        rw [hr] at h
        simp only [bind, Except.bind, pure, Except.pure, Except.ok.injEq] at h
        subst h
        cases b with
        | true =>
          rw [if_pos rfl]
          exact List.Sublist.cons₂ g (ih hr)
        | false =>
          rw [if_neg Bool.false_ne_true]
          exact List.Sublist.cons g (ih hr)


/-- Predicate `pyIsUpper` is false exactly when there is no cased character or
some cased character is lowercase. -/
theorem pyIsUpper_false_iff (s : Str) :
    pyIsUpper s = false ↔
      (∀ c ∈ s, isCasedAscii c = false) ∨
        (∃ c ∈ s, isCasedAscii c = true ∧ c.isUpper = false) := by
  simp only [pyIsUpper, Bool.and_eq_false_iff, List.any_eq_false, List.all_eq_false,
    Bool.or_eq_false_iff, Bool.not_eq_false, Bool.not_eq_true, Bool.not_eq_false']

/-! ## Claims -/

/-- C1 (amended): every line the validator accepts yields a record whose
flight_id passes the format check, whose airport codes both pass
`check_airport`, whose timestamps both parse with arrival strictly later
than departure, and whose stored price satisfies "price <= 0 is false"
under Python float comparison.  (The original claim also asserted the
price is a finite number strictly greater than zero; NaN and infinite
prices are accepted too — see the counterexample.) -/
theorem c1_accepted_record_invariants (raw : Str) (f : Flight)
    (h : processLine raw = .accepted f) :
    flightIdOk f.flight_id = true ∧
    check_airport f.origin "origin" = none ∧
    check_airport f.destination "destination" = none ∧
    (∃ d a, parseDT f.departure_datetime = some d ∧
      parseDT f.arrival_datetime = some a ∧ d.key < a.key) ∧
    pyLe f.price (.finite 0) = false := by
  obtain ⟨fid, org, dst, dep, arr, pr, hsplit, hv⟩ := processLine_accepted_split h
  obtain ⟨h1, h2, h3, ⟨d, hd⟩, ⟨a, ha⟩, hord, p, hp, hple, hf⟩ :=
    validateFields_accepted hv
  subst hf
  exact ⟨h1, h2, h3, ⟨d, a, hd, ha, hord d a hd ha⟩, hple⟩

/-- C1 witness: the invariants instantiated at a concrete accepted line. -/
theorem c1_accepted_record_invariants_witness :
    flightIdOk flightA.flight_id = true ∧
    check_airport flightA.origin "origin" = none ∧
    check_airport flightA.destination "destination" = none ∧
    (∃ d a, parseDT flightA.departure_datetime = some d ∧
      parseDT flightA.arrival_datetime = some a ∧ d.key < a.key) ∧
    pyLe flightA.price (.finite 0) = false :=
  c1_accepted_record_invariants
    "AB12,JFK,LAX,2024-05-01 10:00,2024-05-01 14:00,199.99".toList flightA (by decide)

/-- C1 counterexample: the validator accepts a line whose price field is
"nan" (`float("nan")` succeeds and `nan <= 0` is false), so the stored
price of an accepted record is neither necessarily finite nor
necessarily greater than zero. -/
theorem c1_nonfinite_price_accepted :
    processLine "AB12,JFK,LAX,2024-05-01 10:00,2024-05-01 14:00,nan".toList =
      .accepted ⟨"AB12".toList, "JFK".toList, "LAX".toList,
        "2024-05-01 10:00".toList, "2024-05-01 14:00".toList, .nan⟩ ∧
    PyFloat.isFinite .nan = false ∧ pyGt .nan (.finite 0) = false := by
  refine ⟨by decide, by decide, by decide⟩

/-- C2: the claim says a predicate set whose comparison timestamp fails
to parse must be a reported error local to that predicate set, with the
rest of the batch still evaluated.  The code has no `try`/`except` in
the query loop: `to_dt` raises an uncaught `ValueError` that aborts the
whole `-q` run, so the well-formed second predicate set produces no
QueryResult — while the same batch without the malformed set succeeds. -/
theorem c2_query_timestamp_crash :
    runQueries [flightA]
      [[("departure_datetime", QVal.str "not-a-date".toList)],
       [("origin", QVal.str "JFK".toList)]] = .error () ∧
    runQueries [flightA] [[("origin", QVal.str "JFK".toList)]] =
      .ok [([("origin", QVal.str "JFK".toList)], [flightA])] := by
  refine ⟨by decide, by decide⟩

/-- C3 (amended): `check_airport` fails exactly when the length is not
3, or the code has no cased character at all, or some cased character is
not uppercase (Python `isupper` semantics — uncased characters such as
digits are ignored rather than rejected), or the code is "XXX"; every
failure carries the field-qualified reason string. -/
theorem c3_airport_check_characterization (code : Str) (fieldName : String) :
    (check_airport code fieldName ≠ none ↔
      (code.length ≠ 3 ∨ (∀ c ∈ code, isCasedAscii c = false) ∨
        (∃ c ∈ code, isCasedAscii c = true ∧ c.isUpper = false) ∨
        code = "XXX".toList)) ∧
    (∀ r, check_airport code fieldName = some r →
      r = "invalid " ++ fieldName ++ " code") := by
  constructor
  · rw [Ne, check_airport_none_iff, not_and_or, not_and_or, not_not,
      Bool.not_eq_true, pyIsUpper_false_iff]
    constructor
    · rintro (h | h | h)
      · exact Or.inl h
      · rcases h with h | h
        · exact Or.inr (Or.inl h)
        · exact Or.inr (Or.inr (Or.inl h))
      · exact Or.inr (Or.inr (Or.inr h))
    · rintro (h | h | h | h)
      · exact Or.inl h
      · exact Or.inr (Or.inl (Or.inl h))
      · exact Or.inr (Or.inl (Or.inr h))
      · exact Or.inr (Or.inr h)
  · intro r h
    rcases check_airport_shape code fieldName with hc | hc
    · rw [hc] at h; exact Option.noConfusion h
    · rw [hc] at h; exact (Option.some.inj h).symm

/-- C3 witness: the characterization instantiated at a concrete code. -/
theorem c3_airport_check_witness :
    (check_airport "AB1".toList "origin" ≠ none ↔
      (("AB1".toList : Str).length ≠ 3 ∨
        (∀ c ∈ ("AB1".toList : Str), isCasedAscii c = false) ∨
        (∃ c ∈ ("AB1".toList : Str), isCasedAscii c = true ∧ c.isUpper = false) ∨
        ("AB1".toList : Str) = "XXX".toList)) ∧
    (∀ r, check_airport "AB1".toList "origin" = some r →
      r = "invalid " ++ "origin" ++ " code") :=
  c3_airport_check_characterization "AB1".toList "origin"

/-- C3 counterexample: "AB1" contains a character that is not an
uppercase letter, so the claim says the check fails; the code passes it
(`"AB1".isupper()` is `True` because `'1'` is uncased). -/
theorem c3_uncased_char_passes :
    check_airport "AB1".toList "origin" = none ∧
    '1' ∈ "AB1".toList ∧ '1'.isAlpha = false ∧ '1'.isUpper = false := by
  refine ⟨by decide, by decide, by decide, by decide⟩

/-- C4 (amended): the key the engine dispatches on is
`departure_datetime` (the spec name `departure_time` is an unrecognized
key and is silently ignored — see the counterexample); when both the
stored and the query timestamp parse, the record passes the predicate
exactly when its departure is greater than or equal to the query
timestamp. -/
theorem c4_departure_lower_bound (f : Flight) (v : Str) (df dv : DT)
    (hf : parseDT f.departure_datetime = some df) (hv : parseDT v = some dv) :
    evalPred f "departure_datetime" (QVal.str v) =
      .ok (decide (dv.key ≤ df.key)) := by
  unfold evalPred
  rw [if_neg (by decide), if_neg (by decide), if_neg (by decide),
    if_neg (by decide), if_pos rfl]
  simp only [hf, hv]
  rcases Nat.lt_or_ge df.key dv.key with hlt | hge
  · simp [pure, Except.pure, hlt, Nat.not_le.mpr hlt]
  · simp [pure, Except.pure, hge, Nat.not_lt.mpr hge]

/-- C4 witness: the departure predicate evaluated on a concrete record
and bound. -/
theorem c4_departure_lower_bound_witness :
    evalPred flightA "departure_datetime" (QVal.str "2024-05-02 00:00".toList) =
      .ok (decide ((DT.mk 2024 5 2 0 0).key ≤ (DT.mk 2024 5 1 10 0).key)) :=
  c4_departure_lower_bound flightA ("2024-05-02 00:00".toList)
    ⟨2024, 5, 1, 10, 0⟩ ⟨2024, 5, 2, 0, 0⟩ (by decide) (by decide)

/-- C4 counterexample: under the literal spec key `departure_time` the
record matches the predicate set although its departure (2024-05-01
10:00) is strictly earlier than the query timestamp (2024-05-02 00:00),
refuting the claimed "matches iff departure ≥ bound". -/
theorem c4_departure_time_key_ignored :
    matchFlight flightA [("departure_time", QVal.str "2024-05-02 00:00".toList)] =
      .ok true ∧
    parseDT flightA.departure_datetime = some ⟨2024, 5, 1, 10, 0⟩ ∧
    parseDT "2024-05-02 00:00".toList = some ⟨2024, 5, 2, 0, 0⟩ ∧
    (DT.mk 2024 5 1 10 0).key < (DT.mk 2024 5 2 0 0).key := by
  refine ⟨by decide, by decide, by decide, by decide⟩

/-- C7 (amended): every record matched by the price predicate satisfies
"price > v is false" (for a non-NaN price that is price ≤ v, but a
NaN-priced record — which the validator can produce — matches every
bound, see the counterexample); and decreasing the bound never grows
the match set. -/
theorem c7_price_bound_monotone :
    (∀ db v ms, runQuery [("price", QVal.num v)] db = .ok ms →
      ∀ f ∈ ms, pyGt f.price v = false) ∧
    (∀ db vlo vhi mslo mshi, pyLe vlo vhi = true →
      runQuery [("price", QVal.num vlo)] db = .ok mslo →
      runQuery [("price", QVal.num vhi)] db = .ok mshi →
      ∀ f ∈ mslo, f ∈ mshi) := by
  constructor
  · intro db v ms h f hf
    rcases (runQuery_ok_mem h f).1 hf with ⟨-, hmf⟩
    rw [matchFlight_price] at hmf
    simpa using Except.ok.inj hmf
  · intro db vlo vhi mslo mshi hle hlo hhi f hf
    rcases (runQuery_ok_mem hlo f).1 hf with ⟨hdb, hmf⟩
    rw [matchFlight_price] at hmf
    have hblo : pyGt f.price vlo = false := by simpa using Except.ok.inj hmf
    have hbhi : pyGt f.price vhi = false := by
      by_contra hcon
      have hcon2 : pyGt f.price vhi = true := by
        simpa using hcon
      have := pyGt_of_pyLe_of_pyGt hle hcon2
      rw [this] at hblo
      exact Bool.noConfusion hblo
    refine (runQuery_ok_mem hhi f).2 ⟨hdb, ?_⟩
    rw [matchFlight_price, hbhi]
    rfl

/-- C7 witness: both parts instantiated on a concrete two-record
database with bounds 50 ≤ 100. -/
theorem c7_price_bound_witness :
    pyGt flightB.price (PyFloat.finite 100) = false ∧ flightB ∈ [flightB] :=
  ⟨c7_price_bound_monotone.1 [flightA, flightB] (.finite 100) [flightB]
      (by decide) flightB (by simp),
   c7_price_bound_monotone.2 [flightA, flightB] (.finite 50) (.finite 100)
      [flightB] [flightB] (by decide) (by decide) (by decide) flightB (by simp)⟩

/-- C7 counterexample: the match set for bound 100 contains the
NaN-priced record, but that record's price is not ≤ 100 (every
comparison with NaN is false) — so the match set is not contained in
the records with price ≤ 100. -/
theorem c7_nan_price_match :
    runQuery [("price", QVal.num (.finite 100))] [flightNaN] = .ok [flightNaN] ∧
    pyLe flightNaN.price (.finite 100) = false := by
  refine ⟨by decide, by decide⟩

/-- C8: the matches of every successful query run form a sublist of the
database — original relative order, no reordering, no duplication. -/
theorem c8_stable_subsequence (q : Query) (db ms : List Flight)
    (h : runQuery q db = .ok ms) : List.Sublist ms db :=
  runQuery_ok_sublist h

/-- C8 witness: a concrete run whose matches [flightA] are a sublist of
the database [flightB, flightA]. -/
theorem c8_stable_subsequence_witness :
    List.Sublist [flightA] [flightB, flightA] :=
  c8_stable_subsequence [("origin", QVal.str "JFK".toList)]
    [flightB, flightA] [flightA] (by decide)


/-- Post-split validation never produces a skip outcome. -/
theorem validateFields_acc_or_rej (fid org dst dep arr pr : Str) :
    (∃ f, validateFields fid org dst dep arr pr = .accepted f) ∨
      (∃ rs, validateFields fid org dst dep arr pr = .rejected rs) := by
  unfold validateFields
  split
  · split
    · exact Or.inl ⟨_, rfl⟩
    · exact Or.inr ⟨_, rfl⟩
  · exact Or.inr ⟨_, rfl⟩

/-- A data line (non-blank, non-comment, non-header) is classified as
accepted or rejected, never skipped. -/
theorem processLine_data (raw : Str) (h1 : pyStrip raw ≠ [])
    (h2 : startsWith "#".toList (pyStrip raw) = false)
    (h3 : startsWith "flight_id".toList (pyStrip raw) = false) :
    (∃ f, processLine raw = .accepted f) ∨
      (∃ rs, processLine raw = .rejected rs) := by
  simp only [processLine]
  rw [if_neg h1, if_neg (by rw [h2]; exact Bool.false_ne_true),
    if_neg (by rw [h3]; exact Bool.false_ne_true)]
  split
  · exact validateFields_acc_or_rej ..
  · exact Or.inr ⟨_, rfl⟩

/-- Skip outcomes match the textual line classes. -/
theorem processLine_skips (raw : Str) :
    (processLine raw = .blank ↔ blankLine raw = true) ∧
    (processLine raw = .comment ↔ commentLine raw = true) ∧
    (processLine raw = .header ↔ headerLine raw = true) := by
  by_cases h1 : pyStrip raw = []
  · have hb : processLine raw = .blank := by
      simp only [processLine]; rw [if_pos h1]
    rw [hb]
    simp [blankLine, commentLine, headerLine, List.isEmpty_iff, h1]
  · by_cases h2 : startsWith "#".toList (pyStrip raw) = true
    · have hc : processLine raw = .comment := by
        simp only [processLine]; rw [if_neg h1, if_pos h2]
      rw [hc]
      constructor
      · simp [blankLine, List.isEmpty_iff, h1]
      constructor
      · simp only [commentLine, List.isEmpty_iff]
        constructor
        · intro _
          rw [Bool.and_eq_true]
          exact ⟨by simp [List.isEmpty_iff, h1], h2⟩
        · intro _; trivial
      · simp only [headerLine]
        constructor
        · intro hcon; exact (LineResult.noConfusion hcon)
        · intro hcon
          rw [Bool.and_eq_true, Bool.and_eq_true] at hcon
          rcases hcon with ⟨⟨-, hns⟩, -⟩
          rw [h2] at hns
          exact Bool.noConfusion hns
    · have h2f : startsWith "#".toList (pyStrip raw) = false := by simpa using h2
      by_cases h3 : startsWith "flight_id".toList (pyStrip raw) = true
      · have hh : processLine raw = .header := by
          simp only [processLine]
          rw [if_neg h1, if_neg (by rw [h2f]; exact Bool.false_ne_true), if_pos h3]
        rw [hh]
        constructor
        · simp [blankLine, List.isEmpty_iff, h1]
        constructor
        · simp only [commentLine]
          constructor
          · intro hcon; exact (LineResult.noConfusion hcon)
          · intro hcon
            rw [Bool.and_eq_true] at hcon
            rw [h2f] at hcon
            exact Bool.noConfusion hcon.2
        · simp only [headerLine]
          constructor
          · intro _
            rw [Bool.and_eq_true, Bool.and_eq_true]
            exact ⟨⟨by simp [List.isEmpty_iff, h1], by rw [h2f]; rfl⟩, h3⟩
          · intro _; trivial
      · have h3f : startsWith "flight_id".toList (pyStrip raw) = false := by
          simpa using h3
        have hnotb : blankLine raw = false := by
          simp [blankLine, List.isEmpty_iff, h1]
        have hnotc : commentLine raw = false := by
          simp only [commentLine]
          rw [h2f, Bool.and_false]
        have hnoth : headerLine raw = false := by
          simp only [headerLine]
          rw [h3f, Bool.and_false]
        rcases processLine_data raw h1 h2f h3f with ⟨f, hf⟩ | ⟨rs, hf⟩ <;>
          rw [hf, hnotb, hnotc, hnoth] <;>
          exact ⟨by simp, by simp, by simp⟩

/-- Per line, exactly one of the five outcome classes holds. -/
theorem step_count (l : Str) :
    (if (processLine l).isAcc = true then 1 else 0)
      + (if (processLine l).isRej = true then 1 else 0)
      + ((if blankLine l = true then 1 else 0)
        + (if commentLine l = true then 1 else 0)
        + (if headerLine l = true then 1 else 0)) = 1 := by
  obtain ⟨hb, hc, hh⟩ := processLine_skips l
  by_cases h1 : pyStrip l = []
  · have hbl : blankLine l = true := by simp [blankLine, List.isEmpty_iff, h1]
    have hpl := hb.2 hbl
    have hcl : commentLine l = false := by
      simp [commentLine, List.isEmpty_iff, h1]
    have hhl : headerLine l = false := by
      simp [headerLine, List.isEmpty_iff, h1]
    rw [hpl, hbl, hcl, hhl]
    simp [LineResult.isAcc, LineResult.isRej]
  · have hbl : blankLine l = false := by simp [blankLine, List.isEmpty_iff, h1]
    by_cases h2 : startsWith "#".toList (pyStrip l) = true
    · have hcl : commentLine l = true := by
        simp only [commentLine]
        rw [Bool.and_eq_true]
        exact ⟨by simp [List.isEmpty_iff, h1], h2⟩
      have hpl := hc.2 hcl
      have hhl : headerLine l = false := by
        simp only [headerLine]
        rw [h2]
        simp
      rw [hpl, hbl, hcl, hhl]
      simp [LineResult.isAcc, LineResult.isRej]
    · have h2f : startsWith "#".toList (pyStrip l) = false := by simpa using h2
      have hcl : commentLine l = false := by
        simp only [commentLine]
        rw [h2f, Bool.and_false]
      by_cases h3 : startsWith "flight_id".toList (pyStrip l) = true
      · have hhl : headerLine l = true := by
          simp only [headerLine]
          rw [Bool.and_eq_true, Bool.and_eq_true]
          refine ⟨⟨by simp [List.isEmpty_iff, h1], ?_⟩, h3⟩
          rw [h2f]; rfl
        have hpl := hh.2 hhl
        rw [hpl, hbl, hcl, hhl]
        simp [LineResult.isAcc, LineResult.isRej]
      · have h3f : startsWith "flight_id".toList (pyStrip l) = false := by
          simpa using h3
        have hhl : headerLine l = false := by
          simp only [headerLine]
          rw [h3f, Bool.and_false]
        rcases processLine_data l h1 h2f h3f with ⟨f, hf⟩ | ⟨rs, hf⟩ <;>
          rw [hf, hbl, hcl, hhl] <;>
          simp [LineResult.isAcc, LineResult.isRej]

/-- The five per-line class counts sum to the number of lines. -/
theorem count_sum (lines : List Str) :
    (lines.map processLine).countP LineResult.isAcc
      + (lines.map processLine).countP LineResult.isRej
      + (lines.countP blankLine + lines.countP commentLine
        + lines.countP headerLine) = lines.length := by
  induction lines with
  | nil => simp
  | cons l rest ih =>
    simp only [List.map_cons, List.countP_cons, List.length_cons]
    have hs := step_count l
    omega


/-- C5: every non-blank, non-comment, non-header line is classified as
one of Accepted or Rejected (exactly one — the outcome is a single
constructor), and over any batch the accepted plus rejected counts
equal the number of lines minus the blank, comment and header counts. -/
theorem c5_line_partition :
    (∀ raw : Str, pyStrip raw ≠ [] →
      startsWith "#".toList (pyStrip raw) = false →
      startsWith "flight_id".toList (pyStrip raw) = false →
      ((∃ f, processLine raw = .accepted f) ∨
        (∃ rs, processLine raw = .rejected rs))) ∧
    (∀ lines : List Str,
      (lines.map processLine).countP LineResult.isAcc
        + (lines.map processLine).countP LineResult.isRej
        = lines.length - (lines.countP blankLine + lines.countP commentLine
            + lines.countP headerLine)) := by
  constructor
  · exact processLine_data
  · intro lines
    have := count_sum lines
    omega

/-- C5 witness: the partition applied to a concrete data line. -/
theorem c5_line_partition_witness :
    (∃ f, processLine
      "AB12,JFK,LAX,2024-05-01 10:00,2024-05-01 14:00,199.99".toList =
        .accepted f) ∨
    (∃ rs, processLine
      "AB12,JFK,LAX,2024-05-01 10:00,2024-05-01 14:00,199.99".toList =
        .rejected rs) :=
  c5_line_partition.1
    "AB12,JFK,LAX,2024-05-01 10:00,2024-05-01 14:00,199.99".toList
    (by decide) (by decide) (by decide)

/-- C6: a six-field data line with two or more failures is rejected with
the full reason list: every applicable reason is present (none is
short-circuited away), and the list is ordered by the fixed check order
(flight_id, origin, destination, departure, arrival, cross-check,
price), as the sublist of the canonical reason order shows. -/
theorem c6_reason_collection (raw fid org dst dep arr pr : Str)
    (h1 : pyStrip raw ≠ [])
    (h2 : startsWith "#".toList (pyStrip raw) = false)
    (h3 : startsWith "flight_id".toList (pyStrip raw) = false)
    (hsplit : splitOn ',' (pyStrip raw) = [fid, org, dst, dep, arr, pr])
    (hmulti : 2 ≤ (reasonList fid org dst dep arr pr).length) :
    processLine raw = .rejected (reasonList fid org dst dep arr pr) ∧
    parse_csv_file [raw] =
      ([], [entryLine 1 (pyStrip raw)
        (joinComma (reasonList fid org dst dep arr pr))]) ∧
    (flightIdOk fid = false →
      "invalid flight_id" ∈ reasonList fid org dst dep arr pr) ∧
    (∀ r, check_airport org "origin" = some r →
      r ∈ reasonList fid org dst dep arr pr) ∧
    (∀ r, check_airport dst "destination" = some r →
      r ∈ reasonList fid org dst dep arr pr) ∧
    (parseDT dep = none →
      "invalid departure datetime" ∈ reasonList fid org dst dep arr pr) ∧
    (parseDT arr = none →
      "invalid arrival datetime" ∈ reasonList fid org dst dep arr pr) ∧
    (∀ d a, parseDT dep = some d → parseDT arr = some a → a.key ≤ d.key →
      "arrival before departure" ∈ reasonList fid org dst dep arr pr) ∧
    (parseFloat pr = none →
      "invalid price" ∈ reasonList fid org dst dep arr pr) ∧
    (∀ p, parseFloat pr = some p → pyLe p (.finite 0) = true →
      "negative price value" ∈ reasonList fid org dst dep arr pr) ∧
    List.Sublist (reasonList fid org dst dep arr pr)
      ["invalid flight_id", "invalid origin code", "invalid destination code",
       "invalid departure datetime", "invalid arrival datetime",
       "arrival before departure", "negative price value", "invalid price"] := by
  have hrej : processLine raw = .rejected (reasonList fid org dst dep arr pr) := by
    simp only [processLine]
    rw [if_neg h1, if_neg (by rw [h2]; exact Bool.false_ne_true),
      if_neg (by rw [h3]; exact Bool.false_ne_true), hsplit]
    have hne : reasonList fid org dst dep arr pr ≠ [] := by
      intro hcon
      rw [hcon] at hmulti
      exact absurd hmulti (by simp)
    show validateFields fid org dst dep arr pr =
      LineResult.rejected (reasonList fid org dst dep arr pr)
    unfold validateFields
    split
    · rw [if_neg hne]
    · rfl
  refine ⟨hrej, ?_, ?_, ?_, ?_, ?_, ?_, ?_, ?_, ?_, ?_⟩
  · simp [parse_csv_file, parseLines, hrej]
  · intro hb
    simp [reasonList, optReason, hb]
  · intro r hr
    simp [reasonList, hr]
  · intro r hr
    simp [reasonList, hr]
  · intro hd
    simp [reasonList, optReason, hd]
  · intro ha
    simp [reasonList, optReason, ha]
  · intro d a hd ha hle
    simp [reasonList, crossReason, hd, ha, hle]
  · intro hp
    simp [reasonList, priceReason, hp]
  · intro p hp hneg
    simp [reasonList, priceReason, hp, hneg]
  · have s1 : List.Sublist (optReason (!flightIdOk fid) "invalid flight_id")
        ["invalid flight_id"] := by
      cases hb : flightIdOk fid <;> decide
    have s2 : List.Sublist (check_airport org "origin").toList
        ["invalid origin code"] := by
      rcases check_airport_shape org "origin" with hc | hc <;> rw [hc] <;> decide
    have s3 : List.Sublist (check_airport dst "destination").toList
        ["invalid destination code"] := by
      rcases check_airport_shape dst "destination" with hc | hc <;> rw [hc] <;> decide
    have s4 : List.Sublist
        (optReason (parseDT dep).isNone "invalid departure datetime")
        ["invalid departure datetime"] := by
      cases hd : (parseDT dep).isNone <;> decide
    have s5 : List.Sublist
        (optReason (parseDT arr).isNone "invalid arrival datetime")
        ["invalid arrival datetime"] := by
      cases ha : (parseDT arr).isNone <;> decide
    have s6 : List.Sublist (crossReason (parseDT dep) (parseDT arr))
        ["arrival before departure"] := by
      rcases crossReason_shape (parseDT dep) (parseDT arr) with hc | hc <;>
        rw [hc] <;> decide
    have s7 : List.Sublist (priceReason (parseFloat pr))
        ["negative price value", "invalid price"] := by
      rcases priceReason_shape (parseFloat pr) with hc | hc | hc <;>
        rw [hc] <;> decide
    exact (((((s1.append s2).append s3).append s4).append s5).append s6).append s7

/-- C6 witness: a line with a bad flight_id and a negative price is
rejected with both reasons, in check order. -/
theorem c6_reason_collection_witness :
    processLine "A,JFK,LAX,2024-05-01 10:00,2024-05-01 14:00,-5".toList =
      .rejected ["invalid flight_id", "negative price value"] := by
  have h := c6_reason_collection
    "A,JFK,LAX,2024-05-01 10:00,2024-05-01 14:00,-5".toList
    "A".toList "JFK".toList "LAX".toList
    "2024-05-01 10:00".toList "2024-05-01 14:00".toList "-5".toList
    (by decide) (by decide) (by decide) (by decide) (by decide)
  exact h.1.trans (by decide)

/-- C9: the validator imposes no relation between the two airport-code
fields — a six-field line whose fields individually pass every check is
accepted even when origin and destination are the same code. -/
theorem c9_equal_airports_accepted (fid a dep arr pr : Str) (d t : DT)
    (p : PyFloat)
    (hfid : flightIdOk fid = true)
    (hair : check_airport a "origin" = none)
    (hdep : parseDT dep = some d) (harr : parseDT arr = some t)
    (hord : d.key < t.key)
    (hpr : parseFloat pr = some p) (hpos : pyLe p (.finite 0) = false) :
    validateFields fid a a dep arr pr = .accepted ⟨fid, a, a, dep, arr, p⟩ := by
  have hair2 : check_airport a "destination" = none := by
    rw [check_airport_none_iff] at hair ⊢
    exact hair
  have hreasons : reasonList fid a a dep arr pr = [] := by
    simp [reasonList, optReason, crossReason, priceReason, hfid, hair, hair2,
      hdep, harr, hpr, hpos, Nat.not_le.mpr hord]
  unfold validateFields
  rw [hpr]
  simp [hreasons]

/-- C9 witness: a concrete line with origin = destination = JFK is
accepted. -/
theorem c9_equal_airports_witness :
    validateFields "AB12".toList "JFK".toList "JFK".toList
      "2024-05-01 10:00".toList "2024-05-01 14:00".toList "5".toList =
      .accepted ⟨"AB12".toList, "JFK".toList, "JFK".toList,
        "2024-05-01 10:00".toList, "2024-05-01 14:00".toList, .finite 5⟩ :=
  c9_equal_airports_accepted "AB12".toList "JFK".toList
    "2024-05-01 10:00".toList "2024-05-01 14:00".toList "5".toList
    ⟨2024, 5, 1, 10, 0⟩ ⟨2024, 5, 1, 14, 0⟩ (.finite 5)
    (by decide) (by decide) (by decide) (by decide) (by decide)
    (by decide) (by decide)

/-- C10: the timestamp checks accept non-zero-padded components
(`"2024-5-1 9:05"` parses under `%Y-%m-%d %H:%M`), and an accepted
record stores the two timestamp fields exactly as split from the input
line, with no re-canonicalization. -/
theorem c10_timestamps_verbatim (raw fid org dst dep arr pr : Str)
    (f : Flight)
    (hsplit : splitOn ',' (pyStrip raw) = [fid, org, dst, dep, arr, pr])
    (hacc : processLine raw = .accepted f) :
    parseDT "2024-5-1 9:05".toList = some ⟨2024, 5, 1, 9, 5⟩ ∧
    f.departure_datetime = dep ∧ f.arrival_datetime = arr := by
  obtain ⟨fid2, org2, dst2, dep2, arr2, pr2, hsplit2, hv⟩ :=
    processLine_accepted_split hacc
  rw [hsplit] at hsplit2
  simp only [List.cons.injEq] at hsplit2
  obtain ⟨e1, e2, e3, e4, e5, e6⟩ := hsplit2
  obtain ⟨-, -, -, -, -, -, p, hp, hple, hf⟩ := validateFields_accepted hv
  subst hf
  exact ⟨by decide, e4.symm, e5.symm⟩

/-- C10 witness: a non-zero-padded line is accepted and stores its
timestamp strings verbatim. -/
theorem c10_timestamps_witness :
    parseDT "2024-5-1 9:05".toList = some ⟨2024, 5, 1, 9, 5⟩ ∧
    (Flight.mk "AB12".toList "JFK".toList "LAX".toList
      "2024-5-1 9:05".toList "2024-5-2 10:00".toList
      (.finite 5)).departure_datetime = "2024-5-1 9:05".toList ∧
    (Flight.mk "AB12".toList "JFK".toList "LAX".toList
      "2024-5-1 9:05".toList "2024-5-2 10:00".toList
      (.finite 5)).arrival_datetime = "2024-5-2 10:00".toList :=
  c10_timestamps_verbatim "AB12,JFK,LAX,2024-5-1 9:05,2024-5-2 10:00,5".toList
    "AB12".toList "JFK".toList "LAX".toList "2024-5-1 9:05".toList
    "2024-5-2 10:00".toList "5".toList
    (Flight.mk "AB12".toList "JFK".toList "LAX".toList
      "2024-5-1 9:05".toList "2024-5-2 10:00".toList (.finite 5))
    (by decide) (by decide)

end FlightCsv
